import Mathlib

/-
  Verification of the once_io library: a bounded, nestable window (Chunk)
  over a seekable byte stream (src/lib.rs), plus byte-order-aware fixed-width
  numeric decoders (src/read_num.rs).

  Modelling conventions:
  * Machine integers (u64 offsets) are Nat, with explicit checked arithmetic
    bounded by U64MAX mirroring Rust checked_add / checked_add_signed.
  * Bytes are Nat values (u8 contents never influence control flow; encoders
    produce values below 256).
  * Stateful I/O is state passing: every operation maps a state to an Outcome
    carrying the result and the successor state.  Outcome.panic models a Rust
    panic (the unchecked u64 subtractions in Chunk::start_position and
    Chunk::seek); IOError models std::io::Error kinds that the library
    creates or propagates.
  * The underlying stream is instantiated with Cursor, a cursor over a
    fixed-extent byte buffer with the semantics of std::io::Cursor over
    a mutable slice (reads and writes clamp at the buffer end, seeks may
    move past the end) - the model used by the repository's own tests.
-/

namespace Once

/-- Largest u64 value, 2 ^ 64 - 1. -/
def U64MAX : Nat := 2 ^ 64 - 1

/-- Rust u64 checked_add: none when the sum does not fit in 64 bits. -/
def checkedAdd (a b : Nat) : Option Nat :=
  if a + b ≤ U64MAX then some (a + b) else none

/-- Rust u64 checked_add_signed: none when result is negative or overflows. -/
def checkedAddSigned (a : Nat) (b : Int) : Option Nat :=
  if 0 ≤ (a : Int) + b ∧ (a : Int) + b ≤ (U64MAX : Int) then some ((a : Int) + b).toNat
  else none

/-- std::io::SeekFrom. -/
inductive SeekFrom where
  | start (v : Nat)
  | current (v : Int)
  | fromEnd (v : Int)
deriving DecidableEq

/-- The std::io error conditions this library creates or promotes:
ErrorKind::InvalidInput (Chunk::seek) and ErrorKind::UnexpectedEof
(Read::read_exact inside the numeric decoders). -/
inductive IOError where
  | invalidInput
  | unexpectedEof
deriving DecidableEq

/-- Result of a stateful operation: a value with the successor state, an
io error with the successor state (Rust errors are ordinary values, the
object stays usable), or a panic (unchecked u64 underflow), which has no
successor state. -/
inductive Outcome (σ : Type) (α : Type) where
  | ok (a : α) (s : σ)
  | err (e : IOError) (s : σ)
  | panic
deriving DecidableEq

/-- Sequencing for Outcome: errors and panics propagate. -/
def Outcome.andThen (r : Outcome σ α) (f : α → σ → Outcome σ β) : Outcome σ β :=
  match r with
  | .ok a s => f a s
  | .err e s => .err e s
  | .panic => .panic

/-- The successor state of an outcome, when the operation did not panic. -/
def stateOf : Outcome σ α → Option σ
  | .ok _ s => some s
  | .err _ s => some s
  | .panic => .none

/-- The Read + Write + Seek capability surface of an underlying stream
(the bound 'T: Read + Write + Seek' in src/lib.rs).  read takes the caller
buffer and returns the updated buffer together with the transferred count. -/
structure StreamOps (σ : Type) where
  read : σ → List Nat → Outcome σ (List Nat × Nat)
  write : σ → List Nat → Outcome σ Nat
  seek : σ → SeekFrom → Outcome σ Nat
  streamPosition : σ → Outcome σ Nat
  flush : σ → Outcome σ Unit

/-- std::io::Cursor over a fixed-extent byte buffer. -/
structure Cursor where
  data : List Nat
  pos : Nat
deriving DecidableEq

/-- Cursor read: transfers min(buffer length, bytes left before the end of
data) bytes into the buffer prefix; bytes past the transferred prefix are
untouched. -/
def Cursor.read (c : Cursor) (buf : List Nat) : Outcome Cursor (List Nat × Nat) :=
  let n := min buf.length (c.data.length - c.pos)
  .ok ((c.data.drop c.pos).take n ++ buf.drop n, n) { c with pos := c.pos + n }

/-- Cursor write over a fixed-extent buffer (std slice_write): clamps at the
end of data, never grows it. -/
def Cursor.write (c : Cursor) (buf : List Nat) : Outcome Cursor Nat :=
  let n := min buf.length (c.data.length - c.pos)
  .ok n { data := c.data.take c.pos ++ buf.take n ++ c.data.drop (c.pos + n),
          pos := c.pos + n }

/-- Cursor seek: SeekFrom::Start sets the position unconditionally (past the
end is allowed); Current and End use checked signed addition and fail with
InvalidInput on a negative or overflowing target, leaving the position
unchanged. -/
def Cursor.seek (c : Cursor) (sf : SeekFrom) : Outcome Cursor Nat :=
  match sf with
  | .start v => .ok v { c with pos := v }
  | .current v =>
    match checkedAddSigned c.pos v with
    | some n => .ok n { c with pos := n }
    | none => .err .invalidInput c
  | .fromEnd v =>
    match checkedAddSigned c.data.length v with
    | some n => .ok n { c with pos := n }
    | none => .err .invalidInput c

/-- Cursor stream_position: reports the position, no movement. -/
def Cursor.stream_position (c : Cursor) : Outcome Cursor Nat := .ok c.pos c

/-- Cursor flush: a no-op. -/
def Cursor.flush (c : Cursor) : Outcome Cursor Unit := .ok () c

/-- The canonical underlying stream instance. -/
def cursorOps : StreamOps Cursor where
  read := Cursor.read
  write := Cursor.write
  seek := Cursor.seek
  streamPosition := Cursor.stream_position
  flush := Cursor.flush

/-- The Chunk type of src/lib.rs: an underlying stream, the window-relative
position pos, and the optional byte limit. -/
structure Chunk (σ : Type) where
  inner : σ
  pos : Nat
  limit : Option Nat
deriving DecidableEq

/-- Lift an outcome of the inner stream into the enclosing chunk. -/
def liftInner (c : Chunk σ) (r : Outcome σ α) : Outcome (Chunk σ) α :=
  match r with
  | .ok a s => .ok a { c with inner := s }
  | .err e s => .err e { c with inner := s }
  | .panic => .panic

/-- Stream::chunk, src/lib.rs lines 10-19: wraps the stream at its current
position with pos = 0 and the given limit. -/
def Stream.chunk (s : σ) (limit : Option Nat) : Chunk σ :=
  { inner := s, pos := 0, limit := limit }

/-- Chunk::into_inner, src/lib.rs lines 31-33: hands the underlying stream
back unchanged, at absolute position start + pos. -/
def Chunk.into_inner (c : Chunk σ) : σ := c.inner

/-- Chunk::remainder_len, src/lib.rs lines 35-46: u64::MAX for no limit or
the u64::MAX sentinel limit, otherwise limit - pos via checked_sub with the
None case mapped to 0 (which is Nat subtraction). -/
def Chunk.remainder_len (c : Chunk σ) : Nat :=
  match c.limit with
  | none => U64MAX
  | some v => if v = U64MAX then U64MAX else v - c.pos

/-- Chunk::start_position, src/lib.rs lines 53-55: re-derives the window
start as inner.stream_position() - pos.  The subtraction is unchecked u64
arithmetic in the source, so a state with pos above the inner position
panics. -/
def Chunk.start_position (ops : StreamOps σ) (c : Chunk σ) : Outcome (Chunk σ) Nat :=
  (liftInner c (ops.streamPosition c.inner)).andThen fun sp c1 =>
    if c1.pos ≤ sp then .ok (sp - c1.pos) c1 else .panic

/-- Chunk::end_position, src/lib.rs lines 57-68: records the current inner
position, computes the end (the inner length for no limit, otherwise
min(start + limit, inner length) with an overflowing start + limit treated
as unbounded) by seeking the inner stream to its end, then rolls the inner
stream back to the recorded position. -/
def Chunk.end_position (ops : StreamOps σ) (c : Chunk σ) : Outcome (Chunk σ) Nat :=
  (liftInner c (ops.streamPosition c.inner)).andThen fun rollback c1 =>
    (match c1.limit with
      | none => liftInner c1 (ops.seek c1.inner (.fromEnd 0))
      | some v =>
        (Chunk.start_position ops c1).andThen fun sp c2 =>
          match checkedAdd sp v with
          | none => liftInner c2 (ops.seek c2.inner (.fromEnd 0))
          | some s =>
            (liftInner c2 (ops.seek c2.inner (.fromEnd 0))).andThen fun e c3 =>
              .ok (min s e) c3
    ).andThen fun ep c4 =>
      (liftInner c4 (ops.seek c4.inner (.start rollback))).andThen fun _ c5 =>
        .ok ep c5

/-- Seek for Chunk, src/lib.rs lines 75-94: resolve the request to an
absolute target with checked arithmetic, accept iff the target lies in
[start_position, end_position], move the inner stream there and store and
return the new relative position; otherwise fail with InvalidInput and no
state change.  The subtraction from the inner seek result is unchecked u64
arithmetic in the source. -/
def Chunk.seek (ops : StreamOps σ) (c : Chunk σ) (sf : SeekFrom) : Outcome (Chunk σ) Nat :=
  (Chunk.start_position ops c).andThen fun sp c1 =>
    (Chunk.end_position ops c1).andThen fun ep c2 =>
      (match sf with
        | .current v =>
          (liftInner c2 (ops.streamPosition c2.inner)).andThen fun p c3 =>
            .ok (checkedAddSigned p v) c3
        | .fromEnd v => .ok (checkedAddSigned ep v) c2
        | .start v => .ok (checkedAdd sp v) c2
      ).andThen fun fp c4 =>
        match fp with
        | some v =>
          if sp ≤ v ∧ v ≤ ep then
            (liftInner c4 (ops.seek c4.inner (.start v))).andThen fun r c5 =>
              if sp ≤ r then .ok (r - sp) { c5 with pos := r - sp } else .panic
          else .err .invalidInput c4
        | none => .err .invalidInput c4

/-- stream_position for Chunk, src/lib.rs lines 96-98: returns pos. -/
def Chunk.stream_position (c : Chunk σ) : Outcome (Chunk σ) Nat := .ok c.pos c

/-- Read for Chunk, src/lib.rs lines 105-110: clamp the buffer to
remainder_len, read into that prefix through the inner stream, advance pos
by the transferred count and return it.  Bytes past the clamped prefix are
never handed to the inner stream. -/
def Chunk.read (ops : StreamOps σ) (c : Chunk σ) (buf : List Nat) :
    Outcome (Chunk σ) (List Nat × Nat) :=
  let maxN := min buf.length (Chunk.remainder_len c)
  (liftInner c (ops.read c.inner (buf.take maxN))).andThen fun fn c1 =>
    .ok (fn.1 ++ buf.drop maxN, fn.2) { c1 with pos := c1.pos + fn.2 }

/-- Write for Chunk, src/lib.rs lines 117-122: clamp the buffer to
remainder_len, write the clamped slice through the inner stream, advance
pos by the accepted count and return it. -/
def Chunk.write (ops : StreamOps σ) (c : Chunk σ) (buf : List Nat) :
    Outcome (Chunk σ) Nat :=
  let maxN := min buf.length (Chunk.remainder_len c)
  (liftInner c (ops.write c.inner (buf.take maxN))).andThen fun n c1 =>
    .ok n { c1 with pos := c1.pos + n }

/-- flush for Chunk, src/lib.rs lines 124-126: forwards to the inner
stream. -/
def Chunk.flush (ops : StreamOps σ) (c : Chunk σ) : Outcome (Chunk σ) Unit :=
  (liftInner c (ops.flush c.inner)).andThen fun _ c1 => .ok () c1

/-- The Read + Write + Seek surface of a chunk, so chunks nest (a
Chunk over a Chunk is the nested window of the spec). -/
def chunkOps (ops : StreamOps σ) : StreamOps (Chunk σ) where
  read := Chunk.read ops
  write := Chunk.write ops
  seek := Chunk.seek ops
  streamPosition := Chunk.stream_position
  flush := Chunk.flush ops

/-- OChunk, src/lib.rs lines 146-170: read-only capability view, a tuple
struct around Chunk whose seek and read delegate to the chunk unchanged. -/
structure OChunk (σ : Type) where
  c : Chunk σ
deriving DecidableEq

/-- OStream::ochunk, src/lib.rs lines 130-141: builds the same chunk state
as Stream::chunk. -/
def OStream.ochunk (s : σ) (limit : Option Nat) : OChunk σ :=
  { c := { inner := s, pos := 0, limit := limit } }

/-- OChunk::into_inner, src/lib.rs lines 149-151. -/
def OChunk.into_inner (o : OChunk σ) : σ := o.c.inner

/-- IChunk, src/lib.rs lines 189-217: write-only capability view, a tuple
struct around Chunk whose seek, write and flush delegate unchanged. -/
structure IChunk (σ : Type) where
  c : Chunk σ
deriving DecidableEq

/-- IStream::ichunk, src/lib.rs lines 173-184: builds the same chunk state
as Stream::chunk. -/
def IStream.ichunk (s : σ) (limit : Option Nat) : IChunk σ :=
  { c := { inner := s, pos := 0, limit := limit } }

/-- IChunk::into_inner, src/lib.rs lines 192-194. -/
def IChunk.into_inner (i : IChunk σ) : σ := i.c.inner

/-- Handy constructor for a chunk over a cursor. -/
def mkChunk (data : List Nat) (ip p : Nat) (limit : Option Nat) : Chunk Cursor :=
  { inner := { data := data, pos := ip }, pos := p, limit := limit }

/-
  src/read_num.rs: fixed-width numeric decoders.  Every reader method is
  the same algorithm: read_exact on a zero-initialised sizeof(type) buffer,
  then from_be_bytes or from_le_bytes.  The source macro impl_num_reader_ne
  (lines 154-164) also calls from_le_bytes, so NativeEndianReader decodes
  little-endian on every platform.
  Floats are modelled by their IEEE-754 bit patterns: from_be_bytes and
  from_le_bytes for f32 and f64 are bytewise reinterpretation, so the decode
  is exactly the u32 and u64 decode of the pattern.  usize and isize use the
  64-bit platform word of the test targets.
-/

/-- Byte order selector for the decode step. -/
inductive Endian where
  | be
  | le
deriving DecidableEq

/-- Unsigned value of bytes taken most-significant first (from_be_bytes). -/
def fromBeBytes (bs : List Nat) : Nat := bs.foldl (fun acc b => acc * 256 + b) 0

/-- Unsigned value of bytes taken least-significant first (from_le_bytes). -/
def fromLeBytes (bs : List Nat) : Nat := fromBeBytes bs.reverse

/-- Decode per the chosen byte order. -/
def decodeBytes : Endian → List Nat → Nat
  | .be, bs => fromBeBytes bs
  | .le, bs => fromLeBytes bs

/-- Two's-complement reinterpretation of a k-byte unsigned value, giving the
signed fixed-width value (iN::from_be_bytes on the same bytes). -/
def asSigned (k u : Nat) : Int :=
  if u < 2 ^ (8 * k - 1) then (u : Int) else (u : Int) - 2 ^ (8 * k)

/-- Loop of the default Read::read_exact: repeatedly read into the unfilled
suffix; a read of 0 bytes with the buffer not yet full is promoted to
ErrorKind::UnexpectedEof.  fuel bounds the iteration count; it is never
exhausted for the sources modelled here (each round either stops or fills
at least one byte). -/
def readExactGo (ops : StreamOps σ) : Nat → σ → List Nat → Outcome σ (List Nat)
  | _, s, [] => .ok [] s
  | 0, _, _ :: _ => .panic
  | fuel + 1, s, b :: bs =>
    (ops.read s (b :: bs)).andThen fun fn s1 =>
      if fn.2 = 0 then .err .unexpectedEof s1
      else
        (readExactGo ops fuel s1 (fn.1.drop fn.2)).andThen fun rest s2 =>
          .ok (fn.1.take fn.2 ++ rest) s2

/-- Read::read_exact on a zero-initialised k-byte buffer, as each decoder
method does with its stack buffer. -/
def read_exact (ops : StreamOps σ) (s : σ) (k : Nat) : Outcome σ (List Nat) :=
  readExactGo ops (k + 1) s (List.replicate k 0)

/-- Body of every unsigned (and float, via the bit pattern) reader method:
read exactly k bytes and decode them per the byte order. -/
def readNum (ops : StreamOps σ) (s : σ) (k : Nat) (e : Endian) : Outcome σ Nat :=
  (read_exact ops s k).andThen fun bs s1 => .ok (decodeBytes e bs) s1

/-- Body of every signed reader method: read exactly k bytes and decode them
per the byte order as a two's-complement value. -/
def readNumSigned (ops : StreamOps σ) (s : σ) (k : Nat) (e : Endian) : Outcome σ Int :=
  (read_exact ops s k).andThen fun bs s1 => .ok (asSigned k (decodeBytes e bs)) s1

/-- The NumReader trait surface of src/read_num.rs lines 6-24. -/
structure NumReader (σ : Type) where
  read_u8 : σ → Outcome σ Nat
  read_u16 : σ → Outcome σ Nat
  read_u32 : σ → Outcome σ Nat
  read_u64 : σ → Outcome σ Nat
  read_u128 : σ → Outcome σ Nat
  read_i8 : σ → Outcome σ Int
  read_i16 : σ → Outcome σ Int
  read_i32 : σ → Outcome σ Int
  read_i64 : σ → Outcome σ Int
  read_i128 : σ → Outcome σ Int
  read_usize : σ → Outcome σ Nat
  read_isize : σ → Outcome σ Int
  read_f32 : σ → Outcome σ Nat
  read_f64 : σ → Outcome σ Nat

/-- The shape shared by the three impl macros: every method reads
sizeof(type) bytes and decodes with the given byte order. -/
def mkEndianReader (ops : StreamOps σ) (e : Endian) : NumReader σ where
  read_u8 := fun s => readNum ops s 1 e
  read_u16 := fun s => readNum ops s 2 e
  read_u32 := fun s => readNum ops s 4 e
  read_u64 := fun s => readNum ops s 8 e
  read_u128 := fun s => readNum ops s 16 e
  read_i8 := fun s => readNumSigned ops s 1 e
  read_i16 := fun s => readNumSigned ops s 2 e
  read_i32 := fun s => readNumSigned ops s 4 e
  read_i64 := fun s => readNumSigned ops s 8 e
  read_i128 := fun s => readNumSigned ops s 16 e
  read_usize := fun s => readNum ops s 8 e
  read_isize := fun s => readNumSigned ops s 8 e
  read_f32 := fun s => readNum ops s 4 e
  read_f64 := fun s => readNum ops s 8 e

/-- BigEndianReader, src/read_num.rs lines 86-118: from_be_bytes. -/
def BigEndianReader (ops : StreamOps σ) : NumReader σ := mkEndianReader ops .be

/-- LittleEndianReader, src/read_num.rs lines 120-152: from_le_bytes. -/
def LittleEndianReader (ops : StreamOps σ) : NumReader σ := mkEndianReader ops .le

/-- NativeEndianReader, src/read_num.rs lines 154-186.  The macro
impl_num_reader_ne at line 159 calls from_le_bytes, so this reader is
little-endian on every platform, not platform-native. -/
def NativeEndianReader (ops : StreamOps σ) : NumReader σ := mkEndianReader ops .le

/-- to_be_bytes of the k-byte unsigned value v: most significant byte
first. -/
def beBytes (k v : Nat) : List Nat :=
  (List.range k).map (fun i => v / 256 ^ (k - 1 - i) % 256)

/-- to_le_bytes of the k-byte unsigned value v. -/
def leBytes (k v : Nat) : List Nat := (beBytes k v).reverse

/-- to_be_bytes of a k-byte signed value: the two's-complement bits. -/
def beBytesSigned (k : Nat) (x : Int) : List Nat :=
  beBytes k (x % (2 ^ (8 * k))).toNat

/-- to_le_bytes of a k-byte signed value. -/
def leBytesSigned (k : Nat) (x : Int) : List Nat := (beBytesSigned k x).reverse

/-- to_ne_bytes, parameterized by whether the platform is big-endian. -/
def neBytes (platformBE : Bool) (k v : Nat) : List Nat :=
  if platformBE then beBytes k v else leBytes k v

/-
  Specification-side definitions (from the words of the spec), used to state
  the refinement claims about Chunk::seek.
-/

/-- Spec notion of the window end: min(start + limit, underlying length) when
bounded, else the underlying length. -/
def specWindowEnd (start u : Nat) : Option Nat → Nat
  | none => u
  | some v => min (start + v) u

/-- Spec resolution of a seek request to an absolute target, with checked
arithmetic: from the window start, from the underlying current position, or
from the window end. -/
def specResolve (start ip e : Nat) : SeekFrom → Option Nat
  | .start v => checkedAdd start v
  | .current v => checkedAddSigned ip v
  | .fromEnd v => checkedAddSigned e v

/-- Spec contract of Chunk::seek over a cursor at absolute position ip with
relative position p (window start ip - p): accept exactly the targets t with
start ≤ t ≤ windowEnd, moving the stream to t and returning the new relative
position t - start; reject everything else (negative, overflowing or
out-of-bounds targets) with InvalidInput and no state change. -/
def specSeek (data : List Nat) (ip p : Nat) (limit : Option Nat) (sf : SeekFrom) :
    Outcome (Chunk Cursor) Nat :=
  match specResolve (ip - p) ip (specWindowEnd (ip - p) data.length limit) sf with
  | some t =>
    if ip - p ≤ t ∧ t ≤ specWindowEnd (ip - p) data.length limit then
      .ok (t - (ip - p)) (mkChunk data t (t - (ip - p)) limit)
    else .err .invalidInput (mkChunk data ip p limit)
  | none => .err .invalidInput (mkChunk data ip p limit)

/-- Closed form of Read for a chunk over a cursor: the transferred count is
min(buffer length, remainder_len, bytes left in the underlying data); the
buffer receives that prefix of the underlying data and keeps its own bytes
past it; both positions advance by the count. -/
def specRead (data : List Nat) (ip p : Nat) (l : Option Nat) (buf : List Nat) :
    Outcome (Chunk Cursor) (List Nat × Nat) :=
  let n := min (min buf.length (Chunk.remainder_len (mkChunk data ip p l)))
    (data.length - ip)
  .ok ((data.drop ip).take n ++ buf.drop n, n) (mkChunk data (ip + n) (p + n) l)

/-- Closed form of Write for a chunk over a cursor: the accepted count is
min(buffer length, remainder_len, bytes left in the underlying data); the
underlying data is overwritten on exactly [ip, ip + n) and keeps its
length; both positions advance by the count. -/
def specWrite (data : List Nat) (ip p : Nat) (l : Option Nat) (buf : List Nat) :
    Outcome (Chunk Cursor) Nat :=
  let n := min (min buf.length (Chunk.remainder_len (mkChunk data ip p l)))
    (data.length - ip)
  .ok n (mkChunk (data.take ip ++ buf.take n ++ data.drop (ip + n)) (ip + n) (p + n) l)

/-
  Closed forms for the Chunk operations over a Cursor.
-/

lemma take_drop_glue (buf : List Nat) (n m : Nat) (h : n ≤ m) :
    (buf.take m).drop n ++ buf.drop m = buf.drop n := by
  rw [List.drop_take]
  have hm : buf.drop m = (buf.drop n).drop (m - n) := by
    rw [List.drop_drop]
    congr 1
    omega
  rw [hm, List.take_append_drop]

lemma cursorOps_read : cursorOps.read = Cursor.read := rfl

lemma cursorOps_write : cursorOps.write = Cursor.write := rfl

lemma cursorOps_seek : cursorOps.seek = Cursor.seek := rfl

lemma cursorOps_sp : cursorOps.streamPosition = Cursor.stream_position := rfl

lemma cursorOps_flush : cursorOps.flush = Cursor.flush := rfl

lemma start_position_cursor (data : List Nat) (ip p : Nat) (l : Option Nat)
    (hp : p ≤ ip) :
    Chunk.start_position cursorOps (mkChunk data ip p l) =
      .ok (ip - p) (mkChunk data ip p l) := by
  simp [Chunk.start_position, cursorOps_sp, Cursor.stream_position, liftInner,
    Outcome.andThen, mkChunk, hp]

lemma end_position_cursor (data : List Nat) (ip p : Nat) (l : Option Nat)
    (hp : p ≤ ip) (hU : data.length ≤ U64MAX) :
    Chunk.end_position cursorOps (mkChunk data ip p l) =
      .ok (specWindowEnd (ip - p) data.length l) (mkChunk data ip p l) := by
  have hZ : checkedAddSigned data.length 0 = some data.length := by
    simp [checkedAddSigned]
    omega
  have hsp := start_position_cursor data ip p l hp
  cases l with
  | none =>
    simp [Chunk.end_position, cursorOps_sp, cursorOps_seek, Cursor.stream_position,
      Cursor.seek, liftInner, Outcome.andThen, mkChunk, specWindowEnd, hZ]
  | some v =>
    simp only [Chunk.end_position, cursorOps_sp, cursorOps_seek, Cursor.stream_position,
      liftInner, Outcome.andThen, mkChunk, specWindowEnd]
    simp only [mkChunk] at hsp
    rw [hsp]
    simp only [Outcome.andThen, Cursor.seek, hZ]
    rcases hA : checkedAdd (ip - p) v with _ | s
    · have hmin : min (ip - p + v) data.length = data.length := by
        simp [checkedAdd] at hA
        omega
      simp [liftInner, Outcome.andThen, hmin]
    · have hs : s = ip - p + v := by
        simp [checkedAdd] at hA
        omega
      simp [liftInner, Outcome.andThen, hs]

lemma seek_cursor (data : List Nat) (ip p : Nat) (l : Option Nat) (sf : SeekFrom)
    (hp : p ≤ ip) (hU : data.length ≤ U64MAX) :
    Chunk.seek cursorOps (mkChunk data ip p l) sf = specSeek data ip p l sf := by
  have hsp := start_position_cursor data ip p l hp
  have hep := end_position_cursor data ip p l hp hU
  simp only [Chunk.seek, specSeek]
  rw [hsp]
  simp only [Outcome.andThen]
  rw [hep]
  simp only [Outcome.andThen]
  cases sf with
  | start v =>
    simp only [specResolve, Outcome.andThen]
    rcases h : checkedAdd (ip - p) v with _ | t
    · simp [h]
    · simp only [h]
      split_ifs with hcond
      · simp [liftInner, cursorOps_seek, Cursor.seek, Outcome.andThen, mkChunk, hcond.1]
      · rfl
  | current v =>
    simp only [specResolve, Outcome.andThen, cursorOps_sp, mkChunk, Cursor.stream_position,
      liftInner]
    rcases h : checkedAddSigned ip v with _ | t
    · simp [h]
    · simp only [h]
      split_ifs with hcond
      · simp [liftInner, cursorOps_seek, Cursor.seek, Outcome.andThen, mkChunk, hcond.1]
      · rfl
  | fromEnd v =>
    simp only [specResolve, Outcome.andThen]
    rcases h : checkedAddSigned (specWindowEnd (ip - p) data.length l) v with _ | t
    · simp [h]
    · simp only [h]
      split_ifs with hcond
      · simp [liftInner, cursorOps_seek, Cursor.seek, Outcome.andThen, mkChunk, hcond.1]
      · rfl

lemma read_cursor (data buf : List Nat) (ip p : Nat) (l : Option Nat) :
    Chunk.read cursorOps (mkChunk data ip p l) buf = specRead data ip p l buf := by
  simp only [Chunk.read, specRead, cursorOps_read, Cursor.read, liftInner, Outcome.andThen]
  have hlen : (buf.take (min buf.length (Chunk.remainder_len (mkChunk data ip p l)))).length
      = min buf.length (Chunk.remainder_len (mkChunk data ip p l)) := by
    simp only [List.length_take]
    omega
  rw [hlen]
  have hglue : ((buf.take (min buf.length (Chunk.remainder_len (mkChunk data ip p l)))).drop
        (min (min buf.length (Chunk.remainder_len (mkChunk data ip p l)))
          ((mkChunk data ip p l).inner.data.length - (mkChunk data ip p l).inner.pos)))
      ++ buf.drop (min buf.length (Chunk.remainder_len (mkChunk data ip p l)))
      = buf.drop (min (min buf.length (Chunk.remainder_len (mkChunk data ip p l)))
          ((mkChunk data ip p l).inner.data.length - (mkChunk data ip p l).inner.pos)) := by
    exact take_drop_glue buf _ _ (by omega)
  simp only [mkChunk] at hglue ⊢
  rw [List.append_assoc, hglue]

lemma write_cursor (data buf : List Nat) (ip p : Nat) (l : Option Nat) :
    Chunk.write cursorOps (mkChunk data ip p l) buf = specWrite data ip p l buf := by
  simp only [Chunk.write, specWrite, cursorOps_write, Cursor.write, liftInner, Outcome.andThen]
  have hlen : (buf.take (min buf.length (Chunk.remainder_len (mkChunk data ip p l)))).length
      = min buf.length (Chunk.remainder_len (mkChunk data ip p l)) := by
    simp only [List.length_take]
    omega
  rw [hlen]
  have htt : (buf.take (min buf.length (Chunk.remainder_len (mkChunk data ip p l)))).take
        (min (min buf.length (Chunk.remainder_len (mkChunk data ip p l)))
          ((mkChunk data ip p l).inner.data.length - (mkChunk data ip p l).inner.pos))
      = buf.take (min (min buf.length (Chunk.remainder_len (mkChunk data ip p l)))
          ((mkChunk data ip p l).inner.data.length - (mkChunk data ip p l).inner.pos)) := by
    rw [List.take_take]
    congr 1
    omega
  simp only [mkChunk] at htt ⊢
  rw [htt]

lemma flush_cursor (data : List Nat) (ip p : Nat) (l : Option Nat) :
    Chunk.flush cursorOps (mkChunk data ip p l) = .ok () (mkChunk data ip p l) := by
  simp [Chunk.flush, cursorOps_flush, Cursor.flush, liftInner, Outcome.andThen, mkChunk]

/-
  Reachable chunk states: a chunk as built by Stream::chunk (and, with the
  identical initial state, OStream::ochunk and IStream::ichunk), driven
  sequentially through the public operations.
-/

/-- One public operation of a chunk. -/
inductive ChunkOp where
  | seekOp (sf : SeekFrom)
  | readOp (buf : List Nat)
  | writeOp (buf : List Nat)
  | flushOp

/-- The chunk state after a public operation: present for a normal return
(success or io error), absent when the operation panics. -/
def afterOp (c : Chunk Cursor) : ChunkOp → Option (Chunk Cursor)
  | .seekOp sf => stateOf (Chunk.seek cursorOps c sf)
  | .readOp buf => stateOf (Chunk.read cursorOps c buf)
  | .writeOp buf => stateOf (Chunk.write cursorOps c buf)
  | .flushOp => stateOf (Chunk.flush cursorOps c)

/-- Chunk states reachable from creation over a cursor at position ip0 (a
stream of u64-addressable length), through sequential public operations. -/
inductive Reachable (data : List Nat) (ip0 : Nat) (limit : Option Nat) :
    Chunk Cursor → Prop where
  | base : data.length ≤ U64MAX →
      Reachable data ip0 limit (Stream.chunk (Cursor.mk data ip0) limit)
  | step : ∀ c op c2, Reachable data ip0 limit c → afterOp c op = some c2 →
      Reachable data ip0 limit c2

lemma specSeek_state (data : List Nat) (ip p : Nat) (l : Option Nat) (sf : SeekFrom)
    (c2 : Chunk Cursor) (h : stateOf (specSeek data ip p l sf) = some c2) :
    (∃ t, ip - p ≤ t ∧ c2 = mkChunk data t (t - (ip - p)) l) ∨ c2 = mkChunk data ip p l := by
  unfold specSeek at h
  split at h
  · split_ifs at h with hc
    · simp only [stateOf, Option.some.injEq] at h
      exact Or.inl ⟨_, hc.1, h.symm⟩
    · simp only [stateOf, Option.some.injEq] at h
      exact Or.inr h.symm
  · simp only [stateOf, Option.some.injEq] at h
    exact Or.inr h.symm

lemma specWrite_data_length (data buf : List Nat) (ip : Nat) (n : Nat)
    (hn : n ≤ buf.length) (hn2 : n ≤ data.length - ip) :
    (data.take ip ++ buf.take n ++ data.drop (ip + n)).length = data.length := by
  simp only [List.length_append, List.length_take, List.length_drop]
  omega

/-- The bookkeeping invariant: the underlying position always equals the
creation position plus the relative position, and the underlying length
stays u64-addressable. -/
lemma reachable_inv (data : List Nat) (ip0 : Nat) (limit : Option Nat) (c : Chunk Cursor)
    (h : Reachable data ip0 limit c) :
    c.inner.pos = ip0 + c.pos ∧ c.inner.data.length ≤ U64MAX := by
  induction h with
  | base hU => exact ⟨rfl, hU⟩
  | step c op c2 hr hstep ih =>
    obtain ⟨⟨d, ip⟩, p, l⟩ := c
    simp only at ih
    have hp : p ≤ ip := by omega
    have hU : d.length ≤ U64MAX := ih.2
    cases op with
    | seekOp sf =>
      have hs := seek_cursor d ip p l sf hp hU
      simp only [afterOp, mkChunk] at hstep hs
      rw [hs] at hstep
      rcases specSeek_state d ip p l sf c2 hstep with ⟨t, ht, rfl⟩ | rfl
      · refine ⟨?_, by simpa [mkChunk] using hU⟩
        simp only [mkChunk]
        omega
      · refine ⟨?_, by simpa [mkChunk] using hU⟩
        simp only [mkChunk]
        omega
    | readOp buf =>
      have hs := read_cursor d buf ip p l
      simp only [afterOp, mkChunk] at hstep hs
      rw [hs] at hstep
      simp only [specRead, stateOf, mkChunk, Option.some.injEq] at hstep
      subst hstep
      constructor
      · simp
        omega
      · simpa using hU
    | writeOp buf =>
      have hs := write_cursor d buf ip p l
      simp only [afterOp, mkChunk] at hstep hs
      rw [hs] at hstep
      simp only [specWrite, stateOf, mkChunk, Option.some.injEq] at hstep
      subst hstep
      constructor
      · simp
        omega
      · simp only
        rw [specWrite_data_length d buf ip _ (by omega) (by omega)]
        exact hU
    | flushOp =>
      have hs := flush_cursor d ip p l
      simp only [afterOp, mkChunk] at hstep hs
      rw [hs] at hstep
      simp only [stateOf, Option.some.injEq] at hstep
      subst hstep
      exact ih

/-- No public operation panics from a state satisfying the bookkeeping
invariant. -/
lemma afterOp_isSome (c : Chunk Cursor) (op : ChunkOp)
    (hp : c.pos ≤ c.inner.pos) (hU : c.inner.data.length ≤ U64MAX) :
    afterOp c op ≠ none := by
  obtain ⟨⟨d, ip⟩, p, l⟩ := c
  simp only at hp hU
  cases op with
  | seekOp sf =>
    have hs := seek_cursor d ip p l sf hp hU
    simp only [afterOp, mkChunk] at hs ⊢
    rw [hs]
    unfold specSeek
    split
    · split_ifs <;> simp [stateOf]
    · simp [stateOf]
  | readOp buf =>
    have hs := read_cursor d buf ip p l
    simp only [afterOp, mkChunk] at hs ⊢
    rw [hs]
    simp [specRead, stateOf]
  | writeOp buf =>
    have hs := write_cursor d buf ip p l
    simp only [afterOp, mkChunk] at hs ⊢
    rw [hs]
    simp [specWrite, stateOf]
  | flushOp =>
    have hs := flush_cursor d ip p l
    simp only [afterOp, mkChunk] at hs ⊢
    rw [hs]
    simp [stateOf]

/-
  Closed form of the read_exact loop over a cursor.
-/

lemma readExactGo_cursor (fuel : Nat) (data : List Nat) (pos : Nat) (bs : List Nat)
    (hf : bs.length ≤ fuel) :
    readExactGo cursorOps fuel (Cursor.mk data pos) bs =
      if bs.length ≤ data.length - pos then
        .ok ((data.drop pos).take bs.length) (Cursor.mk data (pos + bs.length))
      else .err .unexpectedEof (Cursor.mk data (pos + (data.length - pos))) := by
  induction fuel generalizing pos bs with
  | zero =>
    cases bs with
    | nil => simp [readExactGo]
    | cons b bs => simp at hf
  | succ f ih =>
    cases bs with
    | nil => simp [readExactGo]
    | cons b bs =>
      simp only [readExactGo, cursorOps_read, Cursor.read, Outcome.andThen]
      have hlen : ((data.drop pos).take (min (b :: bs).length (data.length - pos))).length
          = min (b :: bs).length (data.length - pos) := by
        simp only [List.length_take, List.length_drop]
        omega
      by_cases hz : data.length - pos = 0
      · have hn : min (b :: bs).length (data.length - pos) = 0 := by
          simp [hz]
        have hneg : ¬((b :: bs).length ≤ data.length - pos) := by
          simp only [List.length_cons]
          omega
        rw [hn, if_pos rfl, if_neg hneg]
        rw [hz]
      · have hnz : min (b :: bs).length (data.length - pos) ≠ 0 := by
          simp only [List.length_cons]
          omega
        rw [if_neg hnz]
        rw [List.drop_left' hlen]
        by_cases hfit : (b :: bs).length ≤ data.length - pos
        · have hn : min (b :: bs).length (data.length - pos) = (b :: bs).length :=
            min_eq_left hfit
          have hrec := ih (pos + min (b :: bs).length (data.length - pos))
            ((b :: bs).drop (min (b :: bs).length (data.length - pos)))
            (by simp only [List.length_drop]; omega)
          have hcond : ((b :: bs).drop (min (b :: bs).length (data.length - pos))).length ≤
              data.length - (pos + min (b :: bs).length (data.length - pos)) := by
            simp only [List.length_drop]
            omega
          rw [if_pos hcond] at hrec
          rw [hrec]
          simp only [Outcome.andThen]
          rw [List.take_left' hlen]
          have hdrop : (b :: bs).drop (min (b :: bs).length (data.length - pos)) = [] := by
            rw [hn]
            simp
          rw [hdrop]
          simp only [List.length_cons] at hn hfit
          simp [hn, hfit]
        · have hn : min (b :: bs).length (data.length - pos) = data.length - pos :=
            min_eq_right (by omega)
          have hrec := ih (pos + min (b :: bs).length (data.length - pos))
            ((b :: bs).drop (min (b :: bs).length (data.length - pos)))
            (by simp only [List.length_drop]; omega)
          have hcond : ¬(((b :: bs).drop (min (b :: bs).length (data.length - pos))).length ≤
              data.length - (pos + min (b :: bs).length (data.length - pos))) := by
            simp only [List.length_drop]
            omega
          rw [if_neg hcond] at hrec
          rw [hrec]
          simp only [Outcome.andThen]
          rw [if_neg hfit]
          rw [hn]
          have harith : pos + (data.length - pos) + (data.length - (pos + (data.length - pos)))
              = pos + (data.length - pos) := by omega
          rw [harith]

/-- Bytes outside the patched region [ip, ip + n) of a write are
unchanged. -/
lemma write_patch_getD (data buf : List Nat) (ip n i : Nat)
    (hn : n ≤ buf.length) (hnd : n ≤ data.length - ip)
    (hout : i < ip ∨ ip + n ≤ i) :
    (data.take ip ++ buf.take n ++ data.drop (ip + n)).getD i 0 = data.getD i 0 := by
  by_cases hip : data.length ≤ ip
  · have hn0 : n = 0 := by omega
    rw [hn0]
    rw [List.take_of_length_le hip, List.drop_eq_nil_of_le (by omega)]
    simp
  · push_neg at hip
    have hA : (data.take ip).length = ip := by
      simp only [List.length_take]
      omega
    have hB : (buf.take n).length = n := by
      simp only [List.length_take]
      omega
    rcases hout with hlt | hge
    · simp only [List.getD_eq_getElem?_getD]
      rw [List.getElem?_append_left (by simp only [List.length_append, hA, hB]; omega)]
      rw [List.getElem?_append_left (by rw [hA]; omega)]
      rw [List.getElem?_take_of_lt hlt]
    · by_cases hiL : i < data.length
      · simp only [List.getD_eq_getElem?_getD]
        rw [List.getElem?_append_right (by simp only [List.length_append, hA, hB]; omega)]
        rw [List.length_append, hA, hB]
        rw [List.getElem?_drop]
        have hidx : ip + n + (i - (ip + n)) = i := by omega
        rw [hidx]
      · push_neg at hiL
        have hlen2 : (data.take ip ++ buf.take n ++ data.drop (ip + n)).length
            = data.length := by
          simp only [List.length_append, List.length_take, List.length_drop]
          omega
        have h1 : (data.take ip ++ buf.take n ++ data.drop (ip + n)).length ≤ i := by
          rw [hlen2]
          omega
        simp only [List.getD_eq_getElem?_getD]
        rw [List.getElem?_eq_none h1, List.getElem?_eq_none hiL]

/-- The transferred count of a read or write never exceeds the distance from
the current absolute position to the spec window end. -/
lemma transfer_count_le (data buf : List Nat) (ip p : Nat) (l : Option Nat)
    (hp : p ≤ ip) (hU : data.length ≤ U64MAX) :
    min (min buf.length (Chunk.remainder_len (mkChunk data ip p l))) (data.length - ip)
      ≤ specWindowEnd (ip - p) data.length l - ip := by
  rcases l with _ | v
  · simp only [specWindowEnd, Chunk.remainder_len]
    omega
  · simp only [specWindowEnd, Chunk.remainder_len, mkChunk]
    split_ifs with hv
    · omega
    · omega

lemma read_exact_cursor (data : List Nat) (pos k : Nat) :
    read_exact cursorOps (Cursor.mk data pos) k =
      if k ≤ data.length - pos then
        .ok ((data.drop pos).take k) (Cursor.mk data (pos + k))
      else .err .unexpectedEof (Cursor.mk data (pos + (data.length - pos))) := by
  have h := readExactGo_cursor (k + 1) data pos (List.replicate k 0)
    (by simp)
  simpa [read_exact] using h

lemma chunkOps_sp (ops : StreamOps σ) :
    (chunkOps ops).streamPosition = Chunk.stream_position := rfl

lemma chunkOps_seek (ops : StreamOps σ) : (chunkOps ops).seek = Chunk.seek ops := rfl

lemma specWindowEnd_le (s u : Nat) (l : Option Nat) : specWindowEnd s u l ≤ u := by
  cases l <;> simp [specWindowEnd]

/-
  Claim theorems.
-/

/-- C1: for every window over a cursor of u64-addressable length, with
window_end = min(start + limit, length) when limited and the length
otherwise, a seek request resolved to absolute target T succeeds iff
start ≤ T ≤ window_end; on success the underlying stream moves to T,
the relative position becomes T - start and is returned; on failure
(negative, overflowing or out-of-bounds target, including one byte past
the bound) an invalid-input error is returned with the window state,
including relative_position, unchanged.  All of this is the content of
specSeek. -/
theorem seek_bounds_correct (data : List Nat) (ip p : Nat) (limit : Option Nat)
    (sf : SeekFrom) (hp : p ≤ ip) (hU : data.length ≤ U64MAX) :
    Chunk.seek cursorOps (mkChunk data ip p limit) sf = specSeek data ip p limit sf :=
  seek_cursor data ip p limit sf hp hU

theorem seek_bounds_correct_witness :
    (0 ≤ (0 : Nat) ∧ (List.replicate 10 0).length ≤ U64MAX) ∧
    Chunk.seek cursorOps (mkChunk (List.replicate 10 0) 0 0 (some 5)) (SeekFrom.start 6) =
      specSeek (List.replicate 10 0) 0 0 (some 5) (SeekFrom.start 6) :=
  ⟨⟨by decide, by decide⟩,
    seek_bounds_correct (List.replicate 10 0) 0 0 (some 5) (SeekFrom.start 6)
      (by decide) (by decide)⟩

/-- C2: a write through a window transfers at most
window_end - (start + relative_position) bytes, advances relative_position
by the accepted count, returns that count, and leaves every byte of the
underlying storage below start or at/above window_end unchanged; in
particular the underlying length never grows, so no byte is placed beyond
the underlying stream extent even with an oversized or absent limit. -/
theorem write_respects_window (data buf : List Nat) (ip p : Nat) (l : Option Nat)
    (hp : p ≤ ip) (hU : data.length ≤ U64MAX) :
    ∃ n data2,
      Chunk.write cursorOps (mkChunk data ip p l) buf =
        .ok n (mkChunk data2 (ip + n) (p + n) l) ∧
      n ≤ specWindowEnd (ip - p) data.length l - (ip - p + p) ∧
      data2.length = data.length ∧
      (∀ i, i < ip - p → data2.getD i 0 = data.getD i 0) ∧
      (∀ i, specWindowEnd (ip - p) data.length l ≤ i → data2.getD i 0 = data.getD i 0) := by
  have hw := write_cursor data buf ip p l
  simp only [specWrite] at hw
  have hb := transfer_count_le data buf ip p l hp hU
  have hip : ip - p + p = ip := by omega
  refine ⟨_, _, hw, ?_, ?_, ?_, ?_⟩
  · rw [hip]
    exact hb
  · exact specWrite_data_length data buf ip _ (by omega) (by omega)
  · intro i hi
    exact write_patch_getD data buf ip _ i (by omega) (by omega) (Or.inl (by omega))
  · intro i hi
    refine write_patch_getD data buf ip _ i (by omega) (by omega) ?_
    by_cases hc : i < ip
    · exact Or.inl hc
    · push_neg at hc
      exact Or.inr (by omega)

theorem write_respects_window_witness :
    (0 ≤ (0 : Nat) ∧ (List.replicate 10 0).length ≤ U64MAX) ∧
    (∃ n data2,
      Chunk.write cursorOps (mkChunk (List.replicate 10 0) 0 0 (some 5))
          (List.replicate 10 1) =
        .ok n (mkChunk data2 (0 + n) (0 + n) (some 5)) ∧
      n ≤ specWindowEnd (0 - 0) (List.replicate 10 0).length (some 5) - (0 - 0 + 0) ∧
      data2.length = (List.replicate 10 0).length ∧
      (∀ i, i < 0 - 0 → data2.getD i 0 = (List.replicate 10 0).getD i 0) ∧
      (∀ i, specWindowEnd (0 - 0) (List.replicate 10 0).length (some 5) ≤ i →
        data2.getD i 0 = (List.replicate 10 0).getD i 0)) :=
  ⟨⟨by decide, by decide⟩,
    write_respects_window (List.replicate 10 0) (List.replicate 10 1) 0 0 (some 5)
      (by decide) (by decide)⟩

/-- C3: a read through a window transfers at most
min(buffer length, remaining window bytes) bytes, returns the count the
underlying stream actually supplied, advances relative_position by exactly
that count, leaves every buffer byte beyond the transferred prefix
untouched, treats an oversized request as a successful short read (never an
error), and returns 0 once the position has reached the bound. -/
theorem read_short_and_clamped (data buf : List Nat) (ip p : Nat) (l : Option Nat)
    (hp : p ≤ ip) (hU : data.length ≤ U64MAX) :
    ∃ n,
      Chunk.read cursorOps (mkChunk data ip p l) buf =
        .ok ((data.drop ip).take n ++ buf.drop n, n)
          (mkChunk data (ip + n) (p + n) l) ∧
      n ≤ buf.length ∧
      n ≤ specWindowEnd (ip - p) data.length l - (ip - p + p) ∧
      ((data.drop ip).take n ++ buf.drop n).length = buf.length ∧
      ((data.drop ip).take n ++ buf.drop n).drop n = buf.drop n ∧
      (specWindowEnd (ip - p) data.length l ≤ ip - p + p → n = 0) := by
  have hr := read_cursor data buf ip p l
  simp only [specRead] at hr
  have hb := transfer_count_le data buf ip p l hp hU
  have hip : ip - p + p = ip := by omega
  have hseg : ((data.drop ip).take
      (min (min buf.length (Chunk.remainder_len (mkChunk data ip p l)))
        (data.length - ip))).length
      = min (min buf.length (Chunk.remainder_len (mkChunk data ip p l)))
        (data.length - ip) := by
    simp only [List.length_take, List.length_drop]
    omega
  refine ⟨_, hr, ?_, ?_, ?_, ?_, ?_⟩
  · omega
  · rw [hip]
    exact hb
  · simp only [List.length_append, List.length_drop, hseg]
    omega
  · exact List.drop_left' hseg
  · intro hend
    rw [hip] at hend
    omega

/-- C4: slicing a further chunk with limit L from an already-bounded window
at its current position yields a window whose effective bound (its end in
its own frame, minus its start p in the parent frame) is the intersection
min(L, parent window remaining from that position); nesting never widens
access. -/
theorem nested_chunk_intersects (data : List Nat) (sp p L : Nat) (lim : Option Nat)
    (hU : data.length ≤ U64MAX)
    (hpos : sp + p ≤ specWindowEnd sp data.length lim) :
    Chunk.end_position (chunkOps cursorOps)
        (Stream.chunk (mkChunk data (sp + p) p lim) (some L)) =
      .ok (p + min L (specWindowEnd sp data.length lim - (sp + p)))
        (Stream.chunk (mkChunk data (sp + p) p lim) (some L)) ∧
    p + min L (specWindowEnd sp data.length lim - (sp + p))
      ≤ p + (specWindowEnd sp data.length lim - (sp + p)) := by
  have hE : specWindowEnd sp data.length lim ≤ data.length := specWindowEnd_le _ _ _
  have hsp : sp + p - p = sp := by omega
  have hppE : sp ≤ specWindowEnd sp data.length lim := by omega
  refine ⟨?_, by omega⟩
  have hfe := seek_cursor data (sp + p) p lim (SeekFrom.fromEnd 0) (by omega) hU
  have hfe2 : specSeek data (sp + p) p lim (SeekFrom.fromEnd 0) =
      .ok (specWindowEnd sp data.length lim - sp)
        (mkChunk data (specWindowEnd sp data.length lim)
          (specWindowEnd sp data.length lim - sp) lim) := by
    simp only [specSeek, specResolve, hsp]
    have hk : checkedAddSigned (specWindowEnd sp data.length lim) 0
        = some (specWindowEnd sp data.length lim) := by
      simp [checkedAddSigned]
      omega
    rw [hk]
    simp [hppE]
  have hrb := seek_cursor data (specWindowEnd sp data.length lim)
    (specWindowEnd sp data.length lim - sp) lim (SeekFrom.start p) (by omega) hU
  have hrb2 : specSeek data (specWindowEnd sp data.length lim)
      (specWindowEnd sp data.length lim - sp) lim (SeekFrom.start p) =
      .ok p (mkChunk data (sp + p) p lim) := by
    simp only [specSeek, specResolve]
    have hsp2 : specWindowEnd sp data.length lim
        - (specWindowEnd sp data.length lim - sp) = sp := by omega
    rw [hsp2]
    have hk : checkedAdd sp p = some (sp + p) := by
      simp [checkedAdd]
      omega
    rw [hk]
    simp [hpos]
  rw [hfe2] at hfe
  rw [hrb2] at hrb
  simp only [Chunk.end_position, Stream.chunk, chunkOps_sp, Chunk.stream_position,
    liftInner, Outcome.andThen, Chunk.start_position, mkChunk, Nat.zero_le, if_true,
    Nat.sub_zero, chunkOps_seek]
  simp only [mkChunk] at hfe hrb
  rw [hfe]
  rcases hkA : checkedAdd p L with _ | s
  · have hLbig : ¬(p + L ≤ U64MAX) := by
      by_contra hcon
      simp [checkedAdd, hcon] at hkA
    simp [hrb]
    omega
  · have hs : s = p + L ∧ p + L ≤ U64MAX := by
      simp only [checkedAdd] at hkA
      split at hkA
      · injection hkA with hinj
        exact ⟨hinj.symm, by assumption⟩
      · exact absurd hkA (by simp)
    obtain ⟨hs1, hs2⟩ := hs
    simp [hrb]
    omega

theorem nested_chunk_intersects_witness :
    ((List.replicate 10 0).length ≤ U64MAX ∧
      0 + 0 ≤ specWindowEnd 0 (List.replicate 10 0).length (some 5)) ∧
    (Chunk.end_position (chunkOps cursorOps)
        (Stream.chunk (mkChunk (List.replicate 10 0) (0 + 0) 0 (some 5)) (some 11)) =
      .ok (0 + min 11 (specWindowEnd 0 (List.replicate 10 0).length (some 5) - (0 + 0)))
        (Stream.chunk (mkChunk (List.replicate 10 0) (0 + 0) 0 (some 5)) (some 11)) ∧
    0 + min 11 (specWindowEnd 0 (List.replicate 10 0).length (some 5) - (0 + 0))
      ≤ 0 + (specWindowEnd 0 (List.replicate 10 0).length (some 5) - (0 + 0))) :=
  ⟨⟨by decide, by decide⟩,
    nested_chunk_intersects (List.replicate 10 0) 0 0 11 (some 5) (by decide) (by decide)⟩

theorem read_short_and_clamped_witness :
    (0 ≤ (0 : Nat) ∧ (List.replicate 10 0).length ≤ U64MAX) ∧
    (∃ n,
      Chunk.read cursorOps (mkChunk (List.replicate 10 0) 0 0 (some 5))
          (List.replicate 10 7) =
        .ok (((List.replicate 10 0).drop 0).take n ++ (List.replicate 10 7).drop n, n)
          (mkChunk (List.replicate 10 0) (0 + n) (0 + n) (some 5)) ∧
      n ≤ (List.replicate 10 7).length ∧
      n ≤ specWindowEnd (0 - 0) (List.replicate 10 0).length (some 5) - (0 - 0 + 0) ∧
      (((List.replicate 10 0).drop 0).take n ++ (List.replicate 10 7).drop n).length
        = (List.replicate 10 7).length ∧
      (((List.replicate 10 0).drop 0).take n ++ (List.replicate 10 7).drop n).drop n
        = (List.replicate 10 7).drop n ∧
      (specWindowEnd (0 - 0) (List.replicate 10 0).length (some 5) ≤ 0 - 0 + 0 → n = 0)) :=
  ⟨⟨by decide, by decide⟩,
    read_short_and_clamped (List.replicate 10 0) (List.replicate 10 7) 0 0 (some 5)
      (by decide) (by decide)⟩

/-- C5: in every reachable window state, and again after every public
operation returns to the caller (including failing seeks and the
end-of-window probes that seek the underlying stream to its end and back),
the underlying stream absolute position equals start + relative_position;
into_inner (which has no error conditions) therefore hands the underlying
stream back positioned exactly there. -/
theorem position_invariant_into_inner (data : List Nat) (ip0 : Nat) (limit : Option Nat)
    (c : Chunk Cursor) (h : Reachable data ip0 limit c) :
    c.inner.pos = ip0 + c.pos ∧
    (∀ op c2, afterOp c op = some c2 → c2.inner.pos = ip0 + c2.pos) ∧
    (Chunk.into_inner c).pos = ip0 + c.pos := by
  have h1 := reachable_inv data ip0 limit c h
  refine ⟨h1.1, ?_, h1.1⟩
  intro op c2 hstep
  exact (reachable_inv data ip0 limit c2 (Reachable.step c op c2 h hstep)).1

theorem position_invariant_into_inner_witness :
    Reachable (List.replicate 3 0) 1 none
      (Stream.chunk (Cursor.mk (List.replicate 3 0) 1) none) ∧
    ((Stream.chunk (Cursor.mk (List.replicate 3 0) 1) none).inner.pos =
        1 + (Stream.chunk (Cursor.mk (List.replicate 3 0) 1) none).pos ∧
      (∀ op c2,
        afterOp (Stream.chunk (Cursor.mk (List.replicate 3 0) 1) none) op = some c2 →
          c2.inner.pos = 1 + c2.pos) ∧
      (Chunk.into_inner (Stream.chunk (Cursor.mk (List.replicate 3 0) 1) none)).pos =
        1 + (Stream.chunk (Cursor.mk (List.replicate 3 0) 1) none).pos) :=
  have hr : Reachable (List.replicate 3 0) 1 none
      (Stream.chunk (Cursor.mk (List.replicate 3 0) 1) none) :=
    Reachable.base (by decide)
  ⟨hr, position_invariant_into_inner (List.replicate 3 0) 1 none _ hr⟩

/-- C6: the u64::MAX sentinel limit is treated exactly like no limit:
remainder_len reports u64::MAX for limit None and for limit Some(u64::MAX)
at every relative position with no wraparound, and when start + limit
overflows 64 bits end_position returns the underlying length (unbounded),
never an error. -/
theorem max_limit_sentinel_unbounded (data : List Nat) (ip p v : Nat)
    (hp : p ≤ ip) (hU : data.length ≤ U64MAX) (hover : U64MAX < ip - p + v) :
    (∀ q : Nat, Chunk.remainder_len (mkChunk data ip q none) = U64MAX ∧
      Chunk.remainder_len (mkChunk data ip q (some U64MAX)) = U64MAX) ∧
    Chunk.end_position cursorOps (mkChunk data ip p (some v)) =
      .ok data.length (mkChunk data ip p (some v)) := by
  constructor
  · intro q
    constructor <;> simp [Chunk.remainder_len, mkChunk]
  · have he := end_position_cursor data ip p (some v) hp hU
    rw [he]
    have hw : specWindowEnd (ip - p) data.length (some v) = data.length := by
      simp only [specWindowEnd]
      omega
    rw [hw]

theorem max_limit_sentinel_unbounded_witness :
    (0 ≤ (1 : Nat) ∧ (List.replicate 10 0).length ≤ U64MAX ∧ U64MAX < 1 - 0 + U64MAX) ∧
    ((∀ q : Nat, Chunk.remainder_len (mkChunk (List.replicate 10 0) 1 q none) = U64MAX ∧
        Chunk.remainder_len (mkChunk (List.replicate 10 0) 1 q (some U64MAX)) = U64MAX) ∧
      Chunk.end_position cursorOps (mkChunk (List.replicate 10 0) 1 0 (some U64MAX)) =
        .ok (List.replicate 10 0).length (mkChunk (List.replicate 10 0) 1 0 (some U64MAX))) :=
  ⟨⟨by decide, by decide, by decide⟩,
    max_limit_sentinel_unbounded (List.replicate 10 0) 1 0 U64MAX
      (by decide) (by decide) (by decide)⟩

/-- C10: in every reachable chunk state the underlying stream position is at
least the stored relative position, so the unchecked subtraction in
Chunk::start_position never underflows, and no public operation panics;
OStream::ochunk and IStream::ichunk build exactly the same initial chunk
state as Stream::chunk, so the same holds for them. -/
theorem start_position_no_underflow (data : List Nat) (ip0 : Nat) (limit : Option Nat)
    (c : Chunk Cursor) (h : Reachable data ip0 limit c) :
    c.pos ≤ c.inner.pos ∧
    (∀ op, afterOp c op ≠ none) ∧
    (∀ (τ : Type) (s : τ) (l : Option Nat),
      (OStream.ochunk s l).c = Stream.chunk s l ∧
      (IStream.ichunk s l).c = Stream.chunk s l) := by
  have h1 := reachable_inv data ip0 limit c h
  refine ⟨by omega, ?_, fun τ s l => ⟨rfl, rfl⟩⟩
  intro op
  exact afterOp_isSome c op (by omega) h1.2

theorem start_position_no_underflow_witness :
    Reachable (List.replicate 4 0) 2 (some 3)
      (Stream.chunk (Cursor.mk (List.replicate 4 0) 2) (some 3)) ∧
    ((Stream.chunk (Cursor.mk (List.replicate 4 0) 2) (some 3)).pos ≤
        (Stream.chunk (Cursor.mk (List.replicate 4 0) 2) (some 3)).inner.pos ∧
      (∀ op, afterOp (Stream.chunk (Cursor.mk (List.replicate 4 0) 2) (some 3)) op ≠ none) ∧
      (∀ (τ : Type) (s : τ) (l : Option Nat),
        (OStream.ochunk s l).c = Stream.chunk s l ∧
        (IStream.ichunk s l).c = Stream.chunk s l)) :=
  have hr : Reachable (List.replicate 4 0) 2 (some 3)
      (Stream.chunk (Cursor.mk (List.replicate 4 0) 2) (some 3)) :=
    Reachable.base (by decide)
  ⟨hr, start_position_no_underflow (List.replicate 4 0) 2 (some 3) _ hr⟩

/-- C7 (code bug): the source macro impl_num_reader_ne (src/read_num.rs line
159) calls from_le_bytes, so NativeEndianReader decodes little-endian on
every platform and equals LittleEndianReader.  On a big-endian platform,
decoding to_ne_bytes(258) = [1, 2] as u16 yields 513, while the
platform-native (big-endian) decode required by the claim and by the
repository's own to_ne_bytes round-trip tests is 258. -/
theorem native_reader_little_endian_bug :
    (NativeEndianReader cursorOps).read_u16 (Cursor.mk (neBytes true 2 258) 0) =
      .ok 513 (Cursor.mk (neBytes true 2 258) 2) ∧
    (BigEndianReader cursorOps).read_u16 (Cursor.mk (neBytes true 2 258) 0) =
      .ok 258 (Cursor.mk (neBytes true 2 258) 2) ∧
    (∀ (τ : Type) (ops : StreamOps τ), NativeEndianReader ops = LittleEndianReader ops) ∧
    (513 : Nat) ≠ 258 :=
  ⟨by decide, by decide, fun τ ops => rfl, by decide⟩

/-- C9: for every decoder byte order and every field width k, over a byte
source with fewer than k bytes left the decode fails with an end-of-input
error and never yields a value (no zero padding); with at least k bytes
available it consumes exactly k bytes and returns the decoded value.  All
reader methods of the three decoders are instances of readNum or
readNumSigned. -/
theorem decode_eof_on_short_read (data : List Nat) (pos k : Nat) (e : Endian) :
    readNum cursorOps (Cursor.mk data pos) k e =
      (if k ≤ data.length - pos then
        .ok (decodeBytes e ((data.drop pos).take k)) (Cursor.mk data (pos + k))
      else .err .unexpectedEof (Cursor.mk data (pos + (data.length - pos)))) ∧
    readNumSigned cursorOps (Cursor.mk data pos) k e =
      (if k ≤ data.length - pos then
        .ok (asSigned k (decodeBytes e ((data.drop pos).take k))) (Cursor.mk data (pos + k))
      else .err .unexpectedEof (Cursor.mk data (pos + (data.length - pos)))) := by
  constructor <;>
    · simp only [readNum, readNumSigned, read_exact_cursor]
      split_ifs <;> simp [Outcome.andThen]

set_option maxHeartbeats 2000000 in
set_option maxRecDepth 4096 in
/-- C8: for every supported fixed-width type (u8-u128, i8-i128, usize,
isize, and f32/f64 via their IEEE bit patterns) and for both the big- and
little-endian decoders, decoding the byte representation of 0, the type
minimum, and the type maximum in that byte order yields the original value
exactly. -/
theorem endian_round_trip :
    (BigEndianReader cursorOps).read_u8 (Cursor.mk (beBytes 1 0) 0) = .ok 0 (Cursor.mk (beBytes 1 0) 1) ∧
    (LittleEndianReader cursorOps).read_u8 (Cursor.mk (leBytes 1 0) 0) = .ok 0 (Cursor.mk (leBytes 1 0) 1) ∧
    (BigEndianReader cursorOps).read_u8 (Cursor.mk (beBytes 1 255) 0) = .ok 255 (Cursor.mk (beBytes 1 255) 1) ∧
    (LittleEndianReader cursorOps).read_u8 (Cursor.mk (leBytes 1 255) 0) = .ok 255 (Cursor.mk (leBytes 1 255) 1) ∧
    (BigEndianReader cursorOps).read_u16 (Cursor.mk (beBytes 2 0) 0) = .ok 0 (Cursor.mk (beBytes 2 0) 2) ∧
    (LittleEndianReader cursorOps).read_u16 (Cursor.mk (leBytes 2 0) 0) = .ok 0 (Cursor.mk (leBytes 2 0) 2) ∧
    (BigEndianReader cursorOps).read_u16 (Cursor.mk (beBytes 2 65535) 0) = .ok 65535 (Cursor.mk (beBytes 2 65535) 2) ∧
    (LittleEndianReader cursorOps).read_u16 (Cursor.mk (leBytes 2 65535) 0) = .ok 65535 (Cursor.mk (leBytes 2 65535) 2) ∧
    (BigEndianReader cursorOps).read_u32 (Cursor.mk (beBytes 4 0) 0) = .ok 0 (Cursor.mk (beBytes 4 0) 4) ∧
    (LittleEndianReader cursorOps).read_u32 (Cursor.mk (leBytes 4 0) 0) = .ok 0 (Cursor.mk (leBytes 4 0) 4) ∧
    (BigEndianReader cursorOps).read_u32 (Cursor.mk (beBytes 4 4294967295) 0) = .ok 4294967295 (Cursor.mk (beBytes 4 4294967295) 4) ∧
    (LittleEndianReader cursorOps).read_u32 (Cursor.mk (leBytes 4 4294967295) 0) = .ok 4294967295 (Cursor.mk (leBytes 4 4294967295) 4) ∧
    (BigEndianReader cursorOps).read_u64 (Cursor.mk (beBytes 8 0) 0) = .ok 0 (Cursor.mk (beBytes 8 0) 8) ∧
    (LittleEndianReader cursorOps).read_u64 (Cursor.mk (leBytes 8 0) 0) = .ok 0 (Cursor.mk (leBytes 8 0) 8) ∧
    (BigEndianReader cursorOps).read_u64 (Cursor.mk (beBytes 8 18446744073709551615) 0) = .ok 18446744073709551615 (Cursor.mk (beBytes 8 18446744073709551615) 8) ∧
    (LittleEndianReader cursorOps).read_u64 (Cursor.mk (leBytes 8 18446744073709551615) 0) = .ok 18446744073709551615 (Cursor.mk (leBytes 8 18446744073709551615) 8) ∧
    (BigEndianReader cursorOps).read_u128 (Cursor.mk (beBytes 16 0) 0) = .ok 0 (Cursor.mk (beBytes 16 0) 16) ∧
    (LittleEndianReader cursorOps).read_u128 (Cursor.mk (leBytes 16 0) 0) = .ok 0 (Cursor.mk (leBytes 16 0) 16) ∧
    (BigEndianReader cursorOps).read_u128 (Cursor.mk (beBytes 16 340282366920938463463374607431768211455) 0) = .ok 340282366920938463463374607431768211455 (Cursor.mk (beBytes 16 340282366920938463463374607431768211455) 16) ∧
    (LittleEndianReader cursorOps).read_u128 (Cursor.mk (leBytes 16 340282366920938463463374607431768211455) 0) = .ok 340282366920938463463374607431768211455 (Cursor.mk (leBytes 16 340282366920938463463374607431768211455) 16) ∧
    (BigEndianReader cursorOps).read_usize (Cursor.mk (beBytes 8 0) 0) = .ok 0 (Cursor.mk (beBytes 8 0) 8) ∧
    (LittleEndianReader cursorOps).read_usize (Cursor.mk (leBytes 8 0) 0) = .ok 0 (Cursor.mk (leBytes 8 0) 8) ∧
    (BigEndianReader cursorOps).read_usize (Cursor.mk (beBytes 8 18446744073709551615) 0) = .ok 18446744073709551615 (Cursor.mk (beBytes 8 18446744073709551615) 8) ∧
    (LittleEndianReader cursorOps).read_usize (Cursor.mk (leBytes 8 18446744073709551615) 0) = .ok 18446744073709551615 (Cursor.mk (leBytes 8 18446744073709551615) 8) ∧
    (BigEndianReader cursorOps).read_i8 (Cursor.mk (beBytesSigned 1 (-128)) 0) = .ok (-128) (Cursor.mk (beBytesSigned 1 (-128)) 1) ∧
    (LittleEndianReader cursorOps).read_i8 (Cursor.mk (leBytesSigned 1 (-128)) 0) = .ok (-128) (Cursor.mk (leBytesSigned 1 (-128)) 1) ∧
    (BigEndianReader cursorOps).read_i8 (Cursor.mk (beBytesSigned 1 0) 0) = .ok 0 (Cursor.mk (beBytesSigned 1 0) 1) ∧
    (LittleEndianReader cursorOps).read_i8 (Cursor.mk (leBytesSigned 1 0) 0) = .ok 0 (Cursor.mk (leBytesSigned 1 0) 1) ∧
    (BigEndianReader cursorOps).read_i8 (Cursor.mk (beBytesSigned 1 127) 0) = .ok 127 (Cursor.mk (beBytesSigned 1 127) 1) ∧
    (LittleEndianReader cursorOps).read_i8 (Cursor.mk (leBytesSigned 1 127) 0) = .ok 127 (Cursor.mk (leBytesSigned 1 127) 1) ∧
    (BigEndianReader cursorOps).read_i16 (Cursor.mk (beBytesSigned 2 (-32768)) 0) = .ok (-32768) (Cursor.mk (beBytesSigned 2 (-32768)) 2) ∧
    (LittleEndianReader cursorOps).read_i16 (Cursor.mk (leBytesSigned 2 (-32768)) 0) = .ok (-32768) (Cursor.mk (leBytesSigned 2 (-32768)) 2) ∧
    (BigEndianReader cursorOps).read_i16 (Cursor.mk (beBytesSigned 2 0) 0) = .ok 0 (Cursor.mk (beBytesSigned 2 0) 2) ∧
    (LittleEndianReader cursorOps).read_i16 (Cursor.mk (leBytesSigned 2 0) 0) = .ok 0 (Cursor.mk (leBytesSigned 2 0) 2) ∧
    (BigEndianReader cursorOps).read_i16 (Cursor.mk (beBytesSigned 2 32767) 0) = .ok 32767 (Cursor.mk (beBytesSigned 2 32767) 2) ∧
    (LittleEndianReader cursorOps).read_i16 (Cursor.mk (leBytesSigned 2 32767) 0) = .ok 32767 (Cursor.mk (leBytesSigned 2 32767) 2) ∧
    (BigEndianReader cursorOps).read_i32 (Cursor.mk (beBytesSigned 4 (-2147483648)) 0) = .ok (-2147483648) (Cursor.mk (beBytesSigned 4 (-2147483648)) 4) ∧
    (LittleEndianReader cursorOps).read_i32 (Cursor.mk (leBytesSigned 4 (-2147483648)) 0) = .ok (-2147483648) (Cursor.mk (leBytesSigned 4 (-2147483648)) 4) ∧
    (BigEndianReader cursorOps).read_i32 (Cursor.mk (beBytesSigned 4 0) 0) = .ok 0 (Cursor.mk (beBytesSigned 4 0) 4) ∧
    (LittleEndianReader cursorOps).read_i32 (Cursor.mk (leBytesSigned 4 0) 0) = .ok 0 (Cursor.mk (leBytesSigned 4 0) 4) ∧
    (BigEndianReader cursorOps).read_i32 (Cursor.mk (beBytesSigned 4 2147483647) 0) = .ok 2147483647 (Cursor.mk (beBytesSigned 4 2147483647) 4) ∧
    (LittleEndianReader cursorOps).read_i32 (Cursor.mk (leBytesSigned 4 2147483647) 0) = .ok 2147483647 (Cursor.mk (leBytesSigned 4 2147483647) 4) ∧
    (BigEndianReader cursorOps).read_i64 (Cursor.mk (beBytesSigned 8 (-9223372036854775808)) 0) = .ok (-9223372036854775808) (Cursor.mk (beBytesSigned 8 (-9223372036854775808)) 8) ∧
    (LittleEndianReader cursorOps).read_i64 (Cursor.mk (leBytesSigned 8 (-9223372036854775808)) 0) = .ok (-9223372036854775808) (Cursor.mk (leBytesSigned 8 (-9223372036854775808)) 8) ∧
    (BigEndianReader cursorOps).read_i64 (Cursor.mk (beBytesSigned 8 0) 0) = .ok 0 (Cursor.mk (beBytesSigned 8 0) 8) ∧
    (LittleEndianReader cursorOps).read_i64 (Cursor.mk (leBytesSigned 8 0) 0) = .ok 0 (Cursor.mk (leBytesSigned 8 0) 8) ∧
    (BigEndianReader cursorOps).read_i64 (Cursor.mk (beBytesSigned 8 9223372036854775807) 0) = .ok 9223372036854775807 (Cursor.mk (beBytesSigned 8 9223372036854775807) 8) ∧
    (LittleEndianReader cursorOps).read_i64 (Cursor.mk (leBytesSigned 8 9223372036854775807) 0) = .ok 9223372036854775807 (Cursor.mk (leBytesSigned 8 9223372036854775807) 8) ∧
    (BigEndianReader cursorOps).read_i128 (Cursor.mk (beBytesSigned 16 (-170141183460469231731687303715884105728)) 0) = .ok (-170141183460469231731687303715884105728) (Cursor.mk (beBytesSigned 16 (-170141183460469231731687303715884105728)) 16) ∧
    (LittleEndianReader cursorOps).read_i128 (Cursor.mk (leBytesSigned 16 (-170141183460469231731687303715884105728)) 0) = .ok (-170141183460469231731687303715884105728) (Cursor.mk (leBytesSigned 16 (-170141183460469231731687303715884105728)) 16) ∧
    (BigEndianReader cursorOps).read_i128 (Cursor.mk (beBytesSigned 16 0) 0) = .ok 0 (Cursor.mk (beBytesSigned 16 0) 16) ∧
    (LittleEndianReader cursorOps).read_i128 (Cursor.mk (leBytesSigned 16 0) 0) = .ok 0 (Cursor.mk (leBytesSigned 16 0) 16) ∧
    (BigEndianReader cursorOps).read_i128 (Cursor.mk (beBytesSigned 16 170141183460469231731687303715884105727) 0) = .ok 170141183460469231731687303715884105727 (Cursor.mk (beBytesSigned 16 170141183460469231731687303715884105727) 16) ∧
    (LittleEndianReader cursorOps).read_i128 (Cursor.mk (leBytesSigned 16 170141183460469231731687303715884105727) 0) = .ok 170141183460469231731687303715884105727 (Cursor.mk (leBytesSigned 16 170141183460469231731687303715884105727) 16) ∧
    (BigEndianReader cursorOps).read_isize (Cursor.mk (beBytesSigned 8 (-9223372036854775808)) 0) = .ok (-9223372036854775808) (Cursor.mk (beBytesSigned 8 (-9223372036854775808)) 8) ∧
    (LittleEndianReader cursorOps).read_isize (Cursor.mk (leBytesSigned 8 (-9223372036854775808)) 0) = .ok (-9223372036854775808) (Cursor.mk (leBytesSigned 8 (-9223372036854775808)) 8) ∧
    (BigEndianReader cursorOps).read_isize (Cursor.mk (beBytesSigned 8 0) 0) = .ok 0 (Cursor.mk (beBytesSigned 8 0) 8) ∧
    (LittleEndianReader cursorOps).read_isize (Cursor.mk (leBytesSigned 8 0) 0) = .ok 0 (Cursor.mk (leBytesSigned 8 0) 8) ∧
    (BigEndianReader cursorOps).read_isize (Cursor.mk (beBytesSigned 8 9223372036854775807) 0) = .ok 9223372036854775807 (Cursor.mk (beBytesSigned 8 9223372036854775807) 8) ∧
    (LittleEndianReader cursorOps).read_isize (Cursor.mk (leBytesSigned 8 9223372036854775807) 0) = .ok 9223372036854775807 (Cursor.mk (leBytesSigned 8 9223372036854775807) 8) ∧
    (BigEndianReader cursorOps).read_f32 (Cursor.mk (beBytes 4 0) 0) = .ok 0 (Cursor.mk (beBytes 4 0) 4) ∧
    (LittleEndianReader cursorOps).read_f32 (Cursor.mk (leBytes 4 0) 0) = .ok 0 (Cursor.mk (leBytes 4 0) 4) ∧
    (BigEndianReader cursorOps).read_f32 (Cursor.mk (beBytes 4 4286578687) 0) = .ok 4286578687 (Cursor.mk (beBytes 4 4286578687) 4) ∧
    (LittleEndianReader cursorOps).read_f32 (Cursor.mk (leBytes 4 4286578687) 0) = .ok 4286578687 (Cursor.mk (leBytes 4 4286578687) 4) ∧
    (BigEndianReader cursorOps).read_f32 (Cursor.mk (beBytes 4 2139095039) 0) = .ok 2139095039 (Cursor.mk (beBytes 4 2139095039) 4) ∧
    (LittleEndianReader cursorOps).read_f32 (Cursor.mk (leBytes 4 2139095039) 0) = .ok 2139095039 (Cursor.mk (leBytes 4 2139095039) 4) ∧
    (BigEndianReader cursorOps).read_f64 (Cursor.mk (beBytes 8 0) 0) = .ok 0 (Cursor.mk (beBytes 8 0) 8) ∧
    (LittleEndianReader cursorOps).read_f64 (Cursor.mk (leBytes 8 0) 0) = .ok 0 (Cursor.mk (leBytes 8 0) 8) ∧
    (BigEndianReader cursorOps).read_f64 (Cursor.mk (beBytes 8 18442240474082181119) 0) = .ok 18442240474082181119 (Cursor.mk (beBytes 8 18442240474082181119) 8) ∧
    (LittleEndianReader cursorOps).read_f64 (Cursor.mk (leBytes 8 18442240474082181119) 0) = .ok 18442240474082181119 (Cursor.mk (leBytes 8 18442240474082181119) 8) ∧
    (BigEndianReader cursorOps).read_f64 (Cursor.mk (beBytes 8 9218868437227405311) 0) = .ok 9218868437227405311 (Cursor.mk (beBytes 8 9218868437227405311) 8) ∧
    (LittleEndianReader cursorOps).read_f64 (Cursor.mk (leBytes 8 9218868437227405311) 0) = .ok 9218868437227405311 (Cursor.mk (leBytes 8 9218868437227405311) 8) := by
  refine ⟨?_, ?_, ?_, ?_, ?_, ?_, ?_, ?_, ?_, ?_, ?_, ?_, ?_, ?_, ?_, ?_, ?_, ?_, ?_, ?_, ?_, ?_, ?_, ?_, ?_, ?_, ?_, ?_, ?_, ?_, ?_, ?_, ?_, ?_, ?_, ?_, ?_, ?_, ?_, ?_, ?_, ?_, ?_, ?_, ?_, ?_, ?_, ?_, ?_, ?_, ?_, ?_, ?_, ?_, ?_, ?_, ?_, ?_, ?_, ?_, ?_, ?_, ?_, ?_, ?_, ?_, ?_, ?_, ?_, ?_, ?_, ?_⟩ <;> decide

end Once
